import Mathlib

/-!
Shallow embedding of `app.py` (Streamlit event calendar "ARDEK Takvimi").

The program keeps three category dictionaries (`etkinlikler`, `duyurular`,
`haberler`) mapping ISO-8601 date strings to `Event` records, persists them
as one JSON file (`data.json`), and renders a Monday-first month grid built
with Python's `calendar.monthcalendar`.

Modelling choices:
* Python `datetime.date` is `Date` (a year/month/day triple); `datetime.date`
  only constructs valid proleptic-Gregorian dates with `1 <= year <= 9999`,
  which appears as the `Date.valid` predicate in hypotheses.
* Python `dict` is an association list in insertion order with unique keys;
  `add_item` only ever assigns to an absent key, which appends.
* The JSON layer: `json.dump`/`json.load` are inverse on the dictionaries the
  program writes, so the file content is modelled as the structured `Json`
  value (or `corrupt`, standing for bytes `json.load` fails to parse).
* Streamlit calls (`st.warning`, `st.success`) become structured `UIMsg`
  values; the HTML/CSS text of `create_calendar_html` is presentational, so
  the grid is modelled as the cell structure the HTML loop walks
  (`calendar.monthcalendar` plus the per-day dictionary lookup).
* Python's `sorted` (stable sort by key) is modelled by `List.insertionSort`
  with the non-strict date order, which is also a stable sort.
-/

/-- Python `datetime.date`: a year/month/day triple.  The constructor in
Python validates the fields; here validity is the predicate `Date.valid`. -/
structure Date where
  year : Nat
  month : Nat
  day : Nat
deriving DecidableEq, Repr

/-- Gregorian leap-year rule, as in Python `calendar.isleap`. -/
def isleap (y : Nat) : Bool :=
  y % 4 == 0 && (y % 100 != 0 || y % 400 == 0)

/-- Days in a month, as in Python `calendar.monthrange` /
`datetime._days_in_month` (31-day months are 1,3,5,7,8,10,12). -/
def monthlen (y m : Nat) : Nat :=
  if m = 2 then (if isleap y then 29 else 28)
  else if m = 4 ∨ m = 6 ∨ m = 9 ∨ m = 11 then 30
  else 31

/-- Validity of a date, as enforced by the `datetime.date` constructor
(`MINYEAR = 1`, `MAXYEAR = 9999`). -/
def Date.valid (d : Date) : Prop :=
  1 ≤ d.year ∧ d.year ≤ 9999 ∧ 1 ≤ d.month ∧ d.month ≤ 12 ∧
    1 ≤ d.day ∧ d.day ≤ monthlen d.year d.month

instance (d : Date) : Decidable d.valid := by
  unfold Date.valid; infer_instance

/-- ASCII digit character for a value in `0..9` (used by `%d` formatting). -/
def digitChar : Nat → Char
  | 0 => '0' | 1 => '1' | 2 => '2' | 3 => '3' | 4 => '4'
  | 5 => '5' | 6 => '6' | 7 => '7' | 8 => '8' | _ => '9'

/-- Numeric value of an ASCII digit character. -/
def digitVal (c : Char) : Nat := c.toNat - 48

/-- Is the character an ASCII digit? -/
def isDigitChar (c : Char) : Bool := 48 ≤ c.toNat && c.toNat ≤ 57

/-- Python `date.isoformat`: the `YYYY-MM-DD` string.  Since `datetime.date`
years are in `1..9999` the `%04d-%02d-%02d` formatting is exactly these ten
characters. -/
def Date.isoformat (d : Date) : String :=
  String.mk [digitChar (d.year / 1000 % 10), digitChar (d.year / 100 % 10),
    digitChar (d.year / 10 % 10), digitChar (d.year % 10), '-',
    digitChar (d.month / 10 % 10), digitChar (d.month % 10), '-',
    digitChar (d.day / 10 % 10), digitChar (d.day % 10)]

/-- Python `date.fromisoformat`: parses `YYYY-MM-DD` and then constructs
`date(y, m, d)`, which range-checks the fields; any failure raises
(`ValueError`), modelled as `none`. -/
def Date.fromisoformat (s : String) : Option Date :=
  match s.data with
  | [y1, y2, y3, y4, s1, m1, m2, s2, d1, d2] =>
    if isDigitChar y1 && isDigitChar y2 && isDigitChar y3 && isDigitChar y4 &&
        s1 == '-' && isDigitChar m1 && isDigitChar m2 && s2 == '-' &&
        isDigitChar d1 && isDigitChar d2 then
      let y := 1000 * digitVal y1 + 100 * digitVal y2 + 10 * digitVal y3 + digitVal y4
      let m := 10 * digitVal m1 + digitVal m2
      let dd := 10 * digitVal d1 + digitVal d2
      if 1 ≤ y ∧ y ≤ 9999 ∧ 1 ≤ m ∧ m ≤ 12 ∧ 1 ≤ dd ∧ dd ≤ monthlen y m then
        some ⟨y, m, dd⟩
      else none
    else none
  | _ => none

theorem isDigitChar_digitChar : ∀ k, k < 10 → isDigitChar (digitChar k) = true := by
  decide

theorem digitVal_digitChar : ∀ k, k < 10 → digitVal (digitChar k) = k := by
  decide

theorem monthlen_le_31 (y m : Nat) : monthlen y m ≤ 31 := by
  unfold monthlen; split
  · split <;> omega
  · split <;> omega

theorem monthlen_pos (y m : Nat) : 1 ≤ monthlen y m := by
  unfold monthlen; split
  · split <;> omega
  · split <;> omega

/-- Parsing the ISO string of a valid date recovers the date. -/
theorem fromisoformat_isoformat (d : Date) (h : d.valid) :
    Date.fromisoformat d.isoformat = some d := by
  obtain ⟨y, m, dd⟩ := d
  obtain ⟨h1, h2, h3, h4, h5, h6⟩ := h
  simp only at h1 h2 h3 h4 h5 h6
  have hm : m < 100 := by omega
  have hdd : dd < 100 := by
    have := monthlen_le_31 y m
    omega
  simp only [Date.isoformat, Date.fromisoformat]
  rw [isDigitChar_digitChar _ (by omega), isDigitChar_digitChar _ (by omega),
    isDigitChar_digitChar _ (by omega), isDigitChar_digitChar _ (by omega),
    isDigitChar_digitChar _ (by omega), isDigitChar_digitChar _ (by omega),
    isDigitChar_digitChar _ (by omega), isDigitChar_digitChar _ (by omega)]
  rw [digitVal_digitChar _ (by omega), digitVal_digitChar _ (by omega),
    digitVal_digitChar _ (by omega), digitVal_digitChar _ (by omega),
    digitVal_digitChar _ (by omega), digitVal_digitChar _ (by omega),
    digitVal_digitChar _ (by omega), digitVal_digitChar _ (by omega)]
  have ey : 1000 * (y / 1000 % 10) + 100 * (y / 100 % 10) + 10 * (y / 10 % 10) + y % 10 = y := by
    omega
  have em : 10 * (m / 10 % 10) + m % 10 = m := by omega
  have ed : 10 * (dd / 10 % 10) + dd % 10 = dd := by omega
  simp only [ey, em, ed]
  rw [if_pos (by decide), if_pos ⟨h1, h2, h3, h4, h5, h6⟩]

/-- JSON values, the structured content `json.dump` writes and `json.load`
reads back (`app.py` stores only objects, strings and booleans). -/
inductive Json where
  | null : Json
  | bool (b : Bool) : Json
  | num (n : Int) : Json
  | str (s : String) : Json
  | arr (xs : List Json) : Json
  | obj (kvs : List (String × Json)) : Json

/-- Python `d[k]` on a JSON object: first binding for the key, `none`
models the raised `KeyError` / `TypeError`. -/
def Json.get? (j : Json) (k : String) : Option Json :=
  match j with
  | .obj kvs => (kvs.find? (fun p => p.1 == k)).map (fun p => p.2)
  | _ => none

/-- `Event` dataclass of `app.py`: one dated record; `is_new` defaults to
`True` at construction. -/
structure Event where
  date : Date
  description : String
  is_new : Bool := true
deriving DecidableEq, Repr

/-- `Event.to_dict` (app.py lines 17-22). -/
def Event.to_dict (e : Event) : Json :=
  .obj [("date", .str e.date.isoformat),
        ("description", .str e.description),
        ("is_new", .bool e.is_new)]

/-- `Event.from_dict` (app.py lines 24-30): reads the three keys and parses
the date; a missing key, a non-string date/description, a non-bool flag or
an unparseable date raises, modelled as `none`. -/
def Event.from_dict (j : Json) : Option Event :=
  match j.get? "date", j.get? "description", j.get? "is_new" with
  | some (.str ds), some (.str desc), some (.bool b) =>
    (Date.fromisoformat ds).map (fun d => { date := d, description := desc, is_new := b })
  | _, _, _ => none

/-- A Python `dict[str, Event]` in insertion order with unique keys. -/
abbrev EventDict := List (String × Event)

/-- Python `k in d`. -/
def containsKey (d : EventDict) (k : String) : Bool :=
  d.any (fun p => p.1 == k)

/-- Python `d[k]` (first binding; keys are unique in a real dict). -/
def dictLookup (d : EventDict) (k : String) : Option Event :=
  (d.find? (fun p => p.1 == k)).map (fun p => p.2)

/-- Python `d[k] = v` for an absent key `k`: appends in insertion order
(`add_item` only assigns when `k not in d`). -/
def dictInsertNew (d : EventDict) (k : String) (v : Event) : EventDict :=
  d ++ [(k, v)]

/-- Python `del d[k]`: removes the (unique) binding for `k`. -/
def dictErase : EventDict → String → EventDict
  | [], _ => []
  | (k, v) :: rest, key => if k == key then rest else (k, v) :: dictErase rest key

/-- Keys of a real Python dict are pairwise distinct. -/
def nodupKeys (d : EventDict) : Prop := (d.map Prod.fst).Nodup

instance (d : EventDict) : Decidable (nodupKeys d) := by
  unfold nodupKeys; infer_instance

/-- The `DataStore` dataclass (app.py lines 32-36): three category dicts. -/
structure DataStore where
  etkinlikler : EventDict := []
  duyurular : EventDict := []
  haberler : EventDict := []
deriving DecidableEq, Repr

/-- The three category names offered by the `selectbox` menu of `main`. -/
inductive Category where
  | etkinlikler | duyurular | haberler
deriving DecidableEq, Repr

/-- `getattr(app_state.data_store, choice.lower())` (app.py line 193). -/
def DataStore.get (ds : DataStore) : Category → EventDict
  | .etkinlikler => ds.etkinlikler
  | .duyurular => ds.duyurular
  | .haberler => ds.haberler

/-- Replacing one category dict (in Python the dict is mutated in place
through the `data_dict` alias). -/
def DataStore.set (ds : DataStore) : Category → EventDict → DataStore
  | .etkinlikler, d => { ds with etkinlikler := d }
  | .duyurular, d => { ds with duyurular := d }
  | .haberler, d => { ds with haberler := d }

/-- `{k: v.to_dict() for k, v in d.items()}` (app.py lines 40-42). -/
def dictToJson (d : EventDict) : Json :=
  .obj (d.map (fun p => (p.1, p.2.to_dict)))

/-- `DataStore.to_dict` (app.py lines 38-43). -/
def DataStore.to_dict (ds : DataStore) : Json :=
  .obj [("etkinlikler", dictToJson ds.etkinlikler),
        ("duyurular", dictToJson ds.duyurular),
        ("haberler", dictToJson ds.haberler)]

/-- `{k: Event.from_dict(v) for k, v in data[name].items()}`: maps
`Event.from_dict` over the bindings, propagating any raised error. -/
def dictFromJson (j : Json) : Option EventDict :=
  match j with
  | .obj kvs => kvs.mapM (fun p => (Event.from_dict p.2).map (fun e => (p.1, e)))
  | _ => none

/-- `DataStore.from_dict` (app.py lines 45-51). -/
def DataStore.from_dict (j : Json) : Option DataStore :=
  match j.get? "etkinlikler", j.get? "duyurular", j.get? "haberler" with
  | some je, some jd, some jh =>
    match dictFromJson je, dictFromJson jd, dictFromJson jh with
    | some de, some dd, some dh =>
      some { etkinlikler := de, duyurular := dd, haberler := dh }
    | _, _, _ => none
  | _, _, _ => none

/-- Every entry of the dict has a valid date (true of every dict the program
builds, since `datetime.date` values are valid by construction). -/
def dictValid (d : EventDict) : Prop := ∀ p ∈ d, (Prod.snd p).date.valid

instance (d : EventDict) : Decidable (dictValid d) := by
  unfold dictValid; infer_instance

/-- Every category dict of the store has valid dates. -/
def DataStore.validDates (ds : DataStore) : Prop :=
  dictValid ds.etkinlikler ∧ dictValid ds.duyurular ∧ dictValid ds.haberler

instance (ds : DataStore) : Decidable ds.validDates := by
  unfold DataStore.validDates; infer_instance

theorem Event.from_dict_to_dict (e : Event) (h : e.date.valid) :
    Event.from_dict e.to_dict = some e := by
  simp only [Event.from_dict, Event.to_dict, Json.get?, List.find?]
  simp [fromisoformat_isoformat e.date h]

theorem dictFromJson_dictToJson (d : EventDict) (h : dictValid d) :
    dictFromJson (dictToJson d) = some d := by
  simp only [dictFromJson, dictToJson]
  induction d with
  | nil => rfl
  | cons p rest ih =>
    have hp : p.2.date.valid := h p (by simp)
    have hrest : dictValid rest := fun q hq => h q (by simp [hq])
    simp only [List.map_cons, List.mapM_cons, Event.from_dict_to_dict p.2 hp,
      Option.map_some, ih hrest]
    rfl

/-- Content of the `data.json` file: either bytes that parse to a JSON value
or bytes that `json.load` rejects (`corrupt`). -/
inductive FileContent where
  | corrupt : FileContent
  | json (j : Json) : FileContent

/-- Python `json.load`: raises `JSONDecodeError` on corrupt bytes. -/
def json_load : FileContent → Except String Json
  | .corrupt => .error "JSONDecodeError"
  | .json j => .ok j

/-- The durable backing file.  `content = none` models a missing `data.json`
(`os.path.exists` false).  `version` is the backing store's revision counter
(the spec's "version token"): every completed write produces a fresh
revision of the file, so it increments on each write.  The program itself
never reads or checks it. -/
structure BackingStore where
  content : Option FileContent
  version : Nat

/-- `save_data` (app.py lines 58-60): opens `data.json` for writing and
dumps `data_store.to_dict()`, unconditionally replacing the old content.
It takes no version token, performs no comparison, and cannot fail with a
conflict: the write always lands and yields a fresh revision. -/
def save_data (data_store : DataStore) (fs : BackingStore) : BackingStore :=
  { content := some (.json data_store.to_dict), version := fs.version + 1 }

/-- `load_data` (app.py lines 62-67): if the file exists, `json.load` it and
run `DataStore.from_dict`; there is no `try`/`except`, so a parse or decode
failure propagates as a raised exception (`Except.error`).  A missing file
yields a fresh empty `DataStore`. -/
def load_data (content : Option FileContent) : Except String DataStore :=
  match content with
  | none => .ok {}
  | some fc =>
    match json_load fc with
    | .error e => .error e
    | .ok j =>
      match DataStore.from_dict j with
      | some ds => .ok ds
      | none => .error "KeyError"

/-- Structured stand-ins for the `st.warning` / `st.success` calls that
`add_item` and `delete_item` issue. -/
inductive UIMsg where
  | warnAlreadyMarked (dateKey : String)
  | successAdded (dateKey text : String)
  | successDeleted (dateKey : String)
  | warnNotFound (dateKey : String)
deriving DecidableEq, Repr

/-- Result of one mutation call: the Streamlit messages shown, the data
store after the call (in Python the dict is mutated through the alias), and
the backing file after any `save_data`. -/
structure StepResult where
  msgs : List UIMsg
  state : DataStore
  file : BackingStore

/-- `add_item` (app.py lines 157-164): if the ISO key is present, only warn;
otherwise bind `Event(date, text)` (so `is_new = True`), report success and
`save_data` the whole store. -/
def add_item (date : Date) (text : String) (cat : Category)
    (ds : DataStore) (fs : BackingStore) : StepResult :=
  let date_str := date.isoformat
  let data_dict := ds.get cat
  if containsKey data_dict date_str then
    { msgs := [.warnAlreadyMarked date_str], state := ds, file := fs }
  else
    let ds2 := ds.set cat (dictInsertNew data_dict date_str { date := date, description := text })
    { msgs := [.successAdded date_str text], state := ds2, file := save_data ds2 fs }

/-- `delete_item` (app.py lines 167-173): if the key is present, delete it,
report success and `save_data`; otherwise only warn. -/
def delete_item (date_str : String) (cat : Category)
    (ds : DataStore) (fs : BackingStore) : StepResult :=
  let data_dict := ds.get cat
  if containsKey data_dict date_str then
    let ds2 := ds.set cat (dictErase data_dict date_str)
    { msgs := [.successDeleted date_str], state := ds2, file := save_data ds2 fs }
  else
    { msgs := [.warnNotFound date_str], state := ds, file := fs }

/-- Python date comparison (`x[1].date` keys in `sorted`): lexicographic on
(year, month, day). -/
def dateLe (a b : Date) : Prop :=
  a.year < b.year ∨ (a.year = b.year ∧
    (a.month < b.month ∨ (a.month = b.month ∧ a.day ≤ b.day)))

instance : DecidableRel dateLe := fun a b => by
  unfold dateLe; infer_instance

/-- Order used by `sorted(data_dict.items(), key=lambda x: x[1].date)`. -/
def itemLe (a b : String × Event) : Prop := dateLe a.2.date b.2.date

instance : DecidableRel itemLe := fun a b => by
  unfold itemLe; infer_instance

instance : IsTotal (String × Event) itemLe :=
  ⟨fun a b => by unfold itemLe dateLe; omega⟩

instance : IsTrans (String × Event) itemLe :=
  ⟨fun a b c hab hbc => by unfold itemLe dateLe at *; omega⟩

/-- `sorted(data_dict.items(), key=lambda x: x[1].date)` (app.py line 207):
Python's `sorted` is a stable sort by the key; `List.insertionSort` with the
non-strict order is extensionally the same stable sort. -/
def sortedItems (d : EventDict) : List (String × Event) :=
  List.insertionSort itemLe d

/-- `event.date.strftime(%d.%m.%Y)` (app.py line 208). -/
def formatDMY (d : Date) : String :=
  String.mk [digitChar (d.day / 10 % 10), digitChar (d.day % 10), '.',
    digitChar (d.month / 10 % 10), digitChar (d.month % 10), '.',
    digitChar (d.year / 1000 % 10), digitChar (d.year / 100 % 10),
    digitChar (d.year / 10 % 10), digitChar (d.year % 10)]

/-- `"#FF4B4B" if event.is_new else "#000000"` (app.py line 209). -/
def text_color (is_new : Bool) : String :=
  if is_new then "#FF4B4B" else "#000000"

/-- One row of the "Mevcut ..." (existing entries) listing: the formatted
date heading, the colour both markdown blocks use, and the description. -/
structure ListingRow where
  dateText : String
  color : String
  body : String
deriving DecidableEq, Repr

/-- The existing-entries listing loop (app.py lines 205-211): iterates the
items sorted by date and renders heading and description coloured by
`is_new`.  The loop only reads the events — no field is assigned — so the
dict after the pass is returned unchanged alongside the rendered rows. -/
def render_listing (d : EventDict) : List ListingRow × EventDict :=
  ((sortedItems d).map (fun p =>
    { dateText := formatDMY p.2.date,
      color := text_color p.2.is_new,
      body := p.2.description }), d)

/-- The `AppState` dataclass (app.py lines 53-56). -/
structure AppState where
  data_store : DataStore := {}
  is_admin : Bool := false

/-- The admin widgets that can fire during one Streamlit rerun of `main`:
the "Ekle" button with its date/text inputs, or one "Sil" button. -/
structure AdminInputs where
  addReq : Option (Date × String) := none
  delReq : Option String := none

/-- The mutation dispatch of `main` (app.py lines 197-215): the add and
delete widgets are created only inside `if app_state.is_admin:`, so while
anonymous neither handler can run and no message of any kind is emitted —
the code gates by not rendering the controls, not by reporting. -/
def admin_panel (app_state : AppState) (cat : Category) (inp : AdminInputs)
    (fs : BackingStore) : StepResult :=
  if app_state.is_admin then
    match inp.addReq with
    | some (date, text) => add_item date text cat app_state.data_store fs
    | none =>
      match inp.delReq with
      | some key => delete_item key cat app_state.data_store fs
      | none => { msgs := [], state := app_state.data_store, file := fs }
  else
    { msgs := [], state := app_state.data_store, file := fs }

/-- `datetime._days_before_year`: days before January 1st of the year. -/
def daysBeforeYear (y : Nat) : Nat :=
  (y - 1) * 365 + (y - 1) / 4 - (y - 1) / 100 + (y - 1) / 400

/-- `datetime._days_before_month`: days in the year before the month. -/
def daysBeforeMonth (y : Nat) : Nat → Nat
  | 0 => 0
  | 1 => 0
  | m + 2 => daysBeforeMonth y (m + 1) + monthlen y (m + 1)

/-- `datetime.date.toordinal`: day number in the proleptic Gregorian
calendar, with `date(1,1,1).toordinal() = 1`. -/
def toordinal (d : Date) : Nat :=
  daysBeforeYear d.year + daysBeforeMonth d.year d.month + d.day

/-- `datetime.date.weekday`: `(toordinal + 6) % 7`, Monday = 0. -/
def pyweekday (d : Date) : Nat := (toordinal d + 6) % 7

/-- The flat day sequence of `calendar.Calendar(0).itermonthdays`: with
`firstweekday = 0`, `days_before = (day1 - 0) % 7` zeros, then `1..ndays`,
then `days_after = (0 - day1 - ndays) % 7` zeros (Python `%` on a negative
left operand agrees with `Int.emod` for a positive modulus). -/
def monthDays (y m : Nat) : List Nat :=
  let day1 := pyweekday ⟨y, m, 1⟩
  let ndays := monthlen y m
  List.replicate ((day1 - 0) % 7) 0 ++ (List.range' 1 ndays ++
    List.replicate (((0 - (day1 : Int) - ndays) % 7).toNat) 0)

/-- `[days[i:i+7] for i in range(0, len(days), 7)]`
(`calendar.Calendar.monthdayscalendar`). -/
def chunksOf7 (l : List Nat) : List (List Nat) :=
  if l = [] then [] else l.take 7 :: chunksOf7 (l.drop 7)
termination_by l.length
decreasing_by
  simp only [List.length_drop]
  have : l.length ≠ 0 := fun h => by
    simp_all [List.length_eq_zero]
  omega

/-- `calendar.monthcalendar(year, month)`: the month's days as full weeks,
Monday first, `0` for padding cells. -/
def monthcalendar (y m : Nat) : List (List Nat) :=
  chunksOf7 (monthDays y m)

/-- One `<td>` of the grid that `create_calendar_html` emits: either the
empty padding cell (`day == 0`) or a day cell carrying the day number and
the entry found by the `data_dict` lookup on the day's ISO key. -/
inductive Cell where
  | pad : Cell
  | day (n : Nat) (entry : Option Event) : Cell
deriving DecidableEq, Repr

/-- Is the cell a real day of the month (not padding)? -/
def Cell.isDay : Cell → Bool
  | .pad => false
  | .day _ _ => true

/-- The grid structure walked by the HTML loop of `create_calendar_html`
(app.py lines 136-152): for each week of `calendar.monthcalendar` and each
day in it, a padding cell for `0` and otherwise a day cell with
`data_dict.get(date.isoformat())`.  The surrounding HTML/CSS text and the
15-character display truncation are presentational and carry no further
data. -/
def calendarCells (y m : Nat) (data_dict : EventDict) : List (List Cell) :=
  (monthcalendar y m).map (fun week => week.map (fun day =>
    if day ≠ 0 then Cell.day day (dictLookup data_dict (Date.isoformat ⟨y, m, day⟩))
    else Cell.pad))

/-- Number of non-padding day cells in the grid. -/
def countDayCells (grid : List (List Cell)) : Nat :=
  grid.flatten.countP Cell.isDay

theorem pyweekday_lt (d : Date) : pyweekday d < 7 :=
  Nat.mod_lt _ (by omega)

theorem flatten_chunksOf7 (l : List Nat) : (chunksOf7 l).flatten = l := by
  rw [chunksOf7]
  by_cases h : l = []
  · simp [h]
  · rw [if_neg h, List.flatten_cons, flatten_chunksOf7 (l.drop 7)]
    exact List.take_append_drop 7 l
termination_by l.length
decreasing_by
  have hne : l.length ≠ 0 := fun hh => h (List.length_eq_zero.mp hh)
  simp only [List.length_drop]
  omega

theorem length_mem_chunksOf7 (l : List Nat) (hmod : l.length % 7 = 0) :
    ∀ w ∈ chunksOf7 l, w.length = 7 := by
  rw [chunksOf7]
  by_cases h : l = []
  · simp [h]
  · rw [if_neg h]
    have hne : l.length ≠ 0 := fun hh => h (List.length_eq_zero.mp hh)
    intro w hw
    rcases List.mem_cons.mp hw with rfl | hw'
    · simp only [List.length_take]
      omega
    · exact length_mem_chunksOf7 (l.drop 7)
        (by simp only [List.length_drop]; omega) w hw'
termination_by l.length
decreasing_by
  simp only [List.length_drop]
  omega

/-- Indexing the flattening of a list of 7-element rows: flat position `i`
is row `i / 7`, column `i % 7`. -/
theorem flatten_getElem?_len7 {α : Type} (ll : List (List α))
    (h : ∀ w ∈ ll, w.length = 7) (i : Nat) :
    ll.flatten[i]? = ll[i / 7]?.bind (fun w => w[i % 7]?) := by
  induction ll generalizing i with
  | nil => simp
  | cons w ws ih =>
    have hw : w.length = 7 := h w (by simp)
    have hws : ∀ u ∈ ws, u.length = 7 := fun u hu => h u (by simp [hu])
    rw [List.flatten_cons, List.getElem?_append]
    by_cases hi : i < 7
    · rw [if_pos (by omega)]
      have h0 : i / 7 = 0 := Nat.div_eq_of_lt hi
      have h1 : i % 7 = i := Nat.mod_eq_of_lt hi
      simp [h0, h1]
    · rw [if_neg (by omega), hw, ih hws (i - 7)]
      have hdiv : i / 7 = (i - 7) / 7 + 1 := by omega
      have hmod : i % 7 = (i - 7) % 7 := by omega
      rw [hdiv, hmod, List.getElem?_cons_succ]

theorem monthDays_length_mod (y m : Nat) : (monthDays y m).length % 7 = 0 := by
  have ha7 : pyweekday ⟨y, m, 1⟩ < 7 := pyweekday_lt _
  simp only [monthDays, List.length_append, List.length_replicate,
    List.length_range']
  have h1 : (0 : Int) ≤ (0 - (pyweekday ⟨y, m, 1⟩ : Int) - monthlen y m) % 7 :=
    Int.emod_nonneg _ (by norm_num)
  have h2 : ((((0 - (pyweekday ⟨y, m, 1⟩ : Int) - monthlen y m) % 7)).toNat : Int)
      = (0 - (pyweekday ⟨y, m, 1⟩ : Int) - monthlen y m) % 7 :=
    Int.toNat_of_nonneg h1
  omega

theorem monthDays_getElem (y m dy : Nat) (h1 : 1 ≤ dy) (h2 : dy ≤ monthlen y m) :
    (monthDays y m)[pyweekday ⟨y, m, 1⟩ + (dy - 1)]? = some dy := by
  have ha7 : pyweekday ⟨y, m, 1⟩ < 7 := pyweekday_lt _
  simp only [monthDays]
  rw [List.getElem?_append_right (by simp only [List.length_replicate]; omega)]
  rw [List.getElem?_append]
  rw [if_pos (by simp only [List.length_replicate, List.length_range']; omega)]
  have hidx : pyweekday ⟨y, m, 1⟩ + (dy - 1) -
      ((pyweekday ⟨y, m, 1⟩ - 0) % 7) = dy - 1 := by omega
  simp only [List.length_replicate]
  rw [hidx, List.getElem?_range' 1 1 (by omega)]
  congr 1
  omega

theorem pyweekday_day (y m dy : Nat) (h1 : 1 ≤ dy) :
    (pyweekday ⟨y, m, 1⟩ + (dy - 1)) % 7 = pyweekday ⟨y, m, dy⟩ := by
  simp only [pyweekday, toordinal]
  omega

theorem countP_replicate_zero (k : Nat) (p : Nat → Bool) (hp : p 0 = false) :
    List.countP p (List.replicate k 0) = 0 :=
  List.countP_eq_zero.mpr (fun a ha => by
    rw [(List.mem_replicate.mp ha).2, hp]; simp)

theorem countP_range_one (n : Nat) (p : Nat → Bool)
    (hp : ∀ a, 1 ≤ a → p a = true) : List.countP p (List.range' 1 n) = n := by
  have h : List.countP p (List.range' 1 n) = (List.range' 1 n).length :=
    List.countP_eq_length.mpr (fun a ha => hp a (List.mem_range'_1.mp ha).1)
  rw [h, List.length_range']

/-- C3: for every valid year and month (month in 1..12), the grid built from
(year, month, store) has weeks of exactly 7 cells, contains exactly the
month's number of calendar days as non-padding cells, places day `dy` in
week `(w1 + dy - 1) / 7` at column `(w1 + dy - 1) % 7` (where `w1` is the
Monday-first weekday of the 1st), that column being exactly the Monday-first
weekday of day `dy`, and each day cell carries the stored entry looked up
under the day's DateKey. -/
theorem C3_grid_correct (y m : Nat) (store : EventDict)
    (hy1 : 1 ≤ y) (hy2 : y ≤ 9999) (hm1 : 1 ≤ m) (hm2 : m ≤ 12) :
    (∀ w ∈ calendarCells y m store, w.length = 7) ∧
    countDayCells (calendarCells y m store) = monthlen y m ∧
    (∀ dy, 1 ≤ dy → dy ≤ monthlen y m →
      ((calendarCells y m store)[(pyweekday ⟨y, m, 1⟩ + (dy - 1)) / 7]?.bind
          (fun w => w[(pyweekday ⟨y, m, 1⟩ + (dy - 1)) % 7]?)
        = some (Cell.day dy (dictLookup store (Date.isoformat ⟨y, m, dy⟩)))) ∧
      (pyweekday ⟨y, m, 1⟩ + (dy - 1)) % 7 = pyweekday ⟨y, m, dy⟩) := by
  have hmod := monthDays_length_mod y m
  have hlen7 := length_mem_chunksOf7 (monthDays y m) hmod
  have hweeks : ∀ w ∈ calendarCells y m store, w.length = 7 := by
    intro w hw
    simp only [calendarCells, monthcalendar] at hw
    rcases List.mem_map.mp hw with ⟨w', hw', rfl⟩
    rw [List.length_map]
    exact hlen7 w' hw'
  refine ⟨hweeks, ?_, ?_⟩
  · simp only [countDayCells, calendarCells, monthcalendar,
      ← List.map_flatten, flatten_chunksOf7, List.countP_map, monthDays]
    rw [List.countP_append, List.countP_append]
    rw [countP_replicate_zero _ _ (by simp [Cell.isDay, Function.comp]),
      countP_replicate_zero _ _ (by simp [Cell.isDay, Function.comp]),
      countP_range_one _ _ (fun a ha => by
        simp only [Function.comp]
        rw [if_pos (by omega)]
        rfl)]
    omega
  · intro dy h1 h2
    refine ⟨?_, pyweekday_day y m dy h1⟩
    rw [← flatten_getElem?_len7 (calendarCells y m store) hweeks]
    simp only [calendarCells, monthcalendar, ← List.map_flatten,
      flatten_chunksOf7]
    rw [List.getElem?_map, monthDays_getElem y m dy h1 h2, Option.map_some']
    rw [if_pos (by omega)]

/-- Witness for C3 at the leap month 2024-02 with an empty store: the
hypotheses hold and the grid properties follow (here `monthlen 2024 2`
evaluates to 29 day cells). -/
theorem C3_grid_correct_witness :
    1 ≤ 2024 ∧ 2024 ≤ 9999 ∧ 1 ≤ 2 ∧ 2 ≤ 12 ∧
    ((∀ w ∈ calendarCells 2024 2 [], w.length = 7) ∧
    countDayCells (calendarCells 2024 2 []) = monthlen 2024 2 ∧
    (∀ dy, 1 ≤ dy → dy ≤ monthlen 2024 2 →
      ((calendarCells 2024 2 [])[(pyweekday ⟨2024, 2, 1⟩ + (dy - 1)) / 7]?.bind
          (fun w => w[(pyweekday ⟨2024, 2, 1⟩ + (dy - 1)) % 7]?)
        = some (Cell.day dy (dictLookup [] (Date.isoformat ⟨2024, 2, dy⟩)))) ∧
      (pyweekday ⟨2024, 2, 1⟩ + (dy - 1)) % 7 = pyweekday ⟨2024, 2, dy⟩)) :=
  ⟨by decide, by decide, by decide, by decide,
    C3_grid_correct 2024 2 [] (by decide) (by decide) (by decide) (by decide)⟩

theorem DataStore.get_set (ds : DataStore) (cat : Category) (d : EventDict) :
    (ds.set cat d).get cat = d := by
  cases cat <;> rfl

theorem DataStore.get_set_ne (ds : DataStore) (cat cat' : Category)
    (d : EventDict) (h : cat' ≠ cat) : (ds.set cat d).get cat' = ds.get cat' := by
  cases cat <;> cases cat' <;> first | rfl | exact absurd rfl h

theorem dictLookup_insertNew (d : EventDict) (k : String) (v : Event)
    (h : containsKey d k = false) :
    dictLookup (dictInsertNew d k v) k = some v := by
  induction d with
  | nil => simp [dictLookup, dictInsertNew, List.find?]
  | cons q rest ih =>
    simp only [containsKey, List.any_cons, Bool.or_eq_false_iff] at h
    simp only [dictLookup, dictInsertNew, List.cons_append, List.find?, h.1]
    exact ih h.2

theorem mem_of_mem_dictErase (d : EventDict) (k : String) (p : String × Event)
    (hp : p ∈ dictErase d k) : p ∈ d := by
  induction d with
  | nil => simp [dictErase] at hp
  | cons q rest ih =>
    simp only [dictErase] at hp
    by_cases hq : q.1 == k
    · rw [if_pos hq] at hp
      exact List.mem_cons_of_mem q hp
    · rw [if_neg hq] at hp
      rcases List.mem_cons.mp hp with rfl | hp'
      · exact List.mem_cons_self _ _
      · exact List.mem_cons_of_mem q (ih hp')

theorem dictErase_not_mem (d : EventDict) (key : String) (hnd : nodupKeys d) :
    ∀ p ∈ dictErase d key, p.1 ≠ key := by
  induction d with
  | nil => simp [dictErase]
  | cons q rest ih =>
    have hnd' : nodupKeys rest := (List.nodup_cons.mp hnd).2
    have hq_notin : q.1 ∉ rest.map Prod.fst := (List.nodup_cons.mp hnd).1
    intro p hp
    simp only [dictErase] at hp
    by_cases hq : q.1 == key
    · rw [if_pos hq] at hp
      intro hpk
      exact hq_notin (by
        rw [eq_of_beq hq]
        rw [← hpk]
        exact List.mem_map_of_mem Prod.fst hp)
    · rw [if_neg hq] at hp
      rcases List.mem_cons.mp hp with rfl | hp'
      · exact fun hpk => hq (by simpa using hpk)
      · exact ih hnd' p hp'

theorem mem_sortedItems (d : EventDict) (p : String × Event) :
    p ∈ sortedItems d ↔ p ∈ d :=
  (List.perm_insertionSort itemLe d).mem_iff

/-- Committing and then loading reconstructs the store exactly, provided all
stored dates are valid (true of every date the program ever stores). -/
theorem save_load_roundtrip (ds : DataStore) (fs : BackingStore)
    (h : ds.validDates) :
    load_data (save_data ds fs).content = Except.ok ds := by
  obtain ⟨he, hd2, hh⟩ := h
  have g1 : Json.get? ds.to_dict "etkinlikler" = some (dictToJson ds.etkinlikler) := rfl
  have g2 : Json.get? ds.to_dict "duyurular" = some (dictToJson ds.duyurular) := rfl
  have g3 : Json.get? ds.to_dict "haberler" = some (dictToJson ds.haberler) := rfl
  simp only [save_data, load_data, json_load, DataStore.from_dict, g1, g2, g3,
    dictFromJson_dictToJson _ he, dictFromJson_dictToJson _ hd2,
    dictFromJson_dictToJson _ hh]

/-- C1 (corrected): `save_data` takes no version token and has no failure
path: after session A's commit the backing store's revision token has moved
on from what the sessions observed, yet session B's subsequent commit is
applied unconditionally, replacing the file with B's snapshot
(last-writer-wins). -/
theorem C1_commit_never_conflicts (dsA dsB : DataStore) (s0 : BackingStore) :
    s0.version ≠ (save_data dsA s0).version ∧
    (save_data dsB (save_data dsA s0)).content = some (.json dsB.to_dict) := by
  constructor
  · simp [save_data]
  · rfl

/-- Concrete store committed by session A in the C1 scenario. -/
def storeA : DataStore :=
  { etkinlikler := [("2025-03-10",
      { date := ⟨2025, 3, 10⟩, description := "A", is_new := true })] }

/-- Concrete store committed by session B in the C1 scenario. -/
def storeB : DataStore :=
  { etkinlikler := [("2025-03-10",
      { date := ⟨2025, 3, 10⟩, description := "B", is_new := true })] }

/-- Starting backing store in the C1 scenario: both sessions load it and
observe its version token `0`. -/
def file0 : BackingStore := { content := none, version := 0 }

/-- C1 counterexample: both sessions observe token 0; A commits first, so
the live token at B's write time is 1 ≠ 0; still B's commit is applied and
replaces A's snapshot — it neither fails with a conflict nor leaves the
stored snapshot intact. -/
theorem C1_counterexample :
    file0.version ≠ (save_data storeA file0).version ∧
    (save_data storeB (save_data storeA file0)).content
      = some (.json storeB.to_dict) ∧
    (save_data storeB (save_data storeA file0)).content
      ≠ (save_data storeA file0).content := by
  refine ⟨by simp [save_data, file0], rfl, ?_⟩
  simp [save_data, storeA, storeB, DataStore.to_dict, dictToJson, Event.to_dict]

/-- C2: loading the snapshot produced by committing a set of stores
reconstructs every entry with identical date, description and `is_new`
values — load after save is the identity on store contents. -/
theorem C2_load_after_save_identity (ds : DataStore) (fs : BackingStore)
    (h : ds.validDates) :
    load_data (save_data ds fs).content = Except.ok ds :=
  save_load_roundtrip ds fs h

/-- Witness for C2 on a populated store (one entry in each category). -/
theorem C2_load_after_save_identity_witness :
    DataStore.validDates
      { etkinlikler := [("2025-03-10",
          { date := ⟨2025, 3, 10⟩, description := "Workshop", is_new := true })],
        duyurular := [("2024-02-29",
          { date := ⟨2024, 2, 29⟩, description := "Duyuru", is_new := false })],
        haberler := [("2025-12-31",
          { date := ⟨2025, 12, 31⟩, description := "Haber", is_new := true })] } ∧
    load_data (save_data
      { etkinlikler := [("2025-03-10",
          { date := ⟨2025, 3, 10⟩, description := "Workshop", is_new := true })],
        duyurular := [("2024-02-29",
          { date := ⟨2024, 2, 29⟩, description := "Duyuru", is_new := false })],
        haberler := [("2025-12-31",
          { date := ⟨2025, 12, 31⟩, description := "Haber", is_new := true })] }
      file0).content = Except.ok
      { etkinlikler := [("2025-03-10",
          { date := ⟨2025, 3, 10⟩, description := "Workshop", is_new := true })],
        duyurular := [("2024-02-29",
          { date := ⟨2024, 2, 29⟩, description := "Duyuru", is_new := false })],
        haberler := [("2025-12-31",
          { date := ⟨2025, 12, 31⟩, description := "Haber", is_new := true })] } :=
  ⟨by decide, C2_load_after_save_identity _ file0 (by decide)⟩

/-- C7 (corrected): `load_data` has no exception handling, so a corrupt
snapshot propagates the parse failure instead of degrading to an empty
store; only a missing file yields the empty store set.  A parseable file of
the wrong shape likewise propagates. -/
theorem C7_load_error_propagation :
    load_data none = Except.ok {} ∧
    load_data (some FileContent.corrupt) = Except.error "JSONDecodeError" ∧
    ∀ j, DataStore.from_dict j = none →
      load_data (some (FileContent.json j)) = Except.error "KeyError" := by
  refine ⟨rfl, rfl, ?_⟩
  intro j hj
  simp [load_data, json_load, hj]

/-- Witness for the ∀-part of C7's corrected statement at `Json.null`. -/
theorem C7_load_error_propagation_witness :
    DataStore.from_dict Json.null = none ∧
    load_data (some (FileContent.json Json.null)) = Except.error "KeyError" :=
  ⟨rfl, C7_load_error_propagation.2.2 Json.null rfl⟩

/-- C7 counterexample: on a corrupt snapshot the loader does not return the
empty store set — it propagates the decode error. -/
theorem C7_counterexample :
    load_data (some FileContent.corrupt) ≠ Except.ok (DataStore.mk [] [] []) ∧
    load_data (some FileContent.corrupt) = Except.error "JSONDecodeError" :=
  ⟨by simp [load_data, json_load], rfl⟩

/-- C4: inserting at an already-present DateKey only reports the
"Bu tarih zaten işaretli" warning; the store is unchanged (so the previously
stored entry is untouched) and `save_data` is not called, leaving the
durable copy unchanged. -/
theorem C4_add_item_duplicate (date : Date) (text : String) (cat : Category)
    (ds : DataStore) (fs : BackingStore)
    (h : containsKey (ds.get cat) date.isoformat = true) :
    (add_item date text cat ds fs).msgs = [UIMsg.warnAlreadyMarked date.isoformat] ∧
    (add_item date text cat ds fs).state = ds ∧
    (add_item date text cat ds fs).file = fs ∧
    dictLookup ((add_item date text cat ds fs).state.get cat) date.isoformat
      = dictLookup (ds.get cat) date.isoformat := by
  simp [add_item, h]

/-- Witness for C4: a second insert at 2025-03-10 is rejected with no
side effect. -/
theorem C4_add_item_duplicate_witness :
    containsKey (storeA.get Category.etkinlikler)
      (Date.isoformat ⟨2025, 3, 10⟩) = true ∧
    ((add_item ⟨2025, 3, 10⟩ "second" Category.etkinlikler storeA file0).msgs
        = [UIMsg.warnAlreadyMarked (Date.isoformat ⟨2025, 3, 10⟩)] ∧
      (add_item ⟨2025, 3, 10⟩ "second" Category.etkinlikler storeA file0).state = storeA ∧
      (add_item ⟨2025, 3, 10⟩ "second" Category.etkinlikler storeA file0).file = file0 ∧
      dictLookup ((add_item ⟨2025, 3, 10⟩ "second" Category.etkinlikler storeA file0).state.get
          Category.etkinlikler) (Date.isoformat ⟨2025, 3, 10⟩)
        = dictLookup (storeA.get Category.etkinlikler) (Date.isoformat ⟨2025, 3, 10⟩)) :=
  ⟨by decide, C4_add_item_duplicate ⟨2025, 3, 10⟩ "second" Category.etkinlikler
    storeA file0 (by decide)⟩

/-- C5 (corrected): while the session is not admin, `main` never renders the
add/delete controls, so no mutation handler can run: the store and the
durable file are unchanged — but no "unauthorized" condition is reported
either; the panel emits no message at all. -/
theorem C5_anonymous_noop (app_state : AppState) (cat : Category)
    (inp : AdminInputs) (fs : BackingStore) (h : app_state.is_admin = false) :
    admin_panel app_state cat inp fs
      = { msgs := [], state := app_state.data_store, file := fs } := by
  simp [admin_panel, h]

/-- Witness for C5's corrected statement: anonymous session, pending delete
request. -/
theorem C5_anonymous_noop_witness :
    (AppState.mk storeA false).is_admin = false ∧
    admin_panel (AppState.mk storeA false) Category.etkinlikler
        { delReq := some "2025-03-10" } file0
      = { msgs := [], state := storeA, file := file0 } :=
  ⟨rfl, C5_anonymous_noop (AppState.mk storeA false) Category.etkinlikler
    { delReq := some "2025-03-10" } file0 rfl⟩

/-- C5 counterexample: an anonymous session with a pending delete request
for an existing key produces no message whatsoever — in particular no
"unauthorized" report, contradicting the claim that anonymous mutations
report an unauthorized condition (the no-op half of the claim does hold). -/
theorem C5_counterexample :
    (admin_panel (AppState.mk storeA false) Category.etkinlikler
        { delReq := some "2025-03-10" } file0).msgs = [] ∧
    (admin_panel (AppState.mk storeA false) Category.etkinlikler
        { delReq := some "2025-03-10" } file0).state = storeA := by
  constructor <;> rfl

/-- C6 (corrected): the existing-entries listing is a pure read: it renders
`is_new` as a text colour but never assigns it, so an entry's `is_new` flag
is identical before and after any number of rendering passes (there is no
`mark_seen` operation anywhere in the program). -/
theorem C6_listing_never_marks_seen (d : EventDict) (k : String) (e : Event)
    (h : dictLookup d k = some e) :
    dictLookup ((render_listing d).2) k = some e ∧
    dictLookup ((render_listing ((render_listing d).2)).2) k = some e := by
  exact ⟨h, h⟩

/-- Witness for C6's corrected statement: the `is_new = true` entry stays
`is_new = true` through one and two rendering passes. -/
theorem C6_listing_never_marks_seen_witness :
    dictLookup storeA.etkinlikler "2025-03-10"
      = some { date := ⟨2025, 3, 10⟩, description := "A", is_new := true } ∧
    (dictLookup ((render_listing storeA.etkinlikler).2) "2025-03-10"
        = some { date := ⟨2025, 3, 10⟩, description := "A", is_new := true } ∧
      dictLookup ((render_listing ((render_listing storeA.etkinlikler).2)).2) "2025-03-10"
        = some { date := ⟨2025, 3, 10⟩, description := "A", is_new := true }) :=
  ⟨by decide, C6_listing_never_marks_seen storeA.etkinlikler "2025-03-10"
    { date := ⟨2025, 3, 10⟩, description := "A", is_new := true } (by decide)⟩

/-- C6 counterexample: an entry created with `is_new = true` still has
`is_new = true` after being rendered in the existing-entries listing,
contradicting the claimed transition to `false` on first rendering. -/
theorem C6_counterexample :
    (render_listing storeA.etkinlikler).2 = storeA.etkinlikler ∧
    dictLookup ((render_listing storeA.etkinlikler).2) "2025-03-10"
      = some { date := ⟨2025, 3, 10⟩, description := "A", is_new := true } := by
  constructor
  · rfl
  · decide

/-- C8: deleting a present DateKey removes it — the post-state is the dict
with the key erased, and the sorted listing no longer contains the key —
while deleting an absent DateKey only reports "Bu tarih bulunamadı" and
leaves both the store and the durable copy unchanged. -/
theorem C8_delete_item (key : String) (cat : Category) (ds : DataStore)
    (fs : BackingStore) (hnd : nodupKeys (ds.get cat)) :
    (containsKey (ds.get cat) key = true →
      (delete_item key cat ds fs).msgs = [UIMsg.successDeleted key] ∧
      (delete_item key cat ds fs).state.get cat = dictErase (ds.get cat) key ∧
      (∀ p ∈ sortedItems ((delete_item key cat ds fs).state.get cat), p.1 ≠ key) ∧
      (delete_item key cat ds fs).file
        = save_data ((delete_item key cat ds fs).state) fs) ∧
    (containsKey (ds.get cat) key = false →
      (delete_item key cat ds fs).msgs = [UIMsg.warnNotFound key] ∧
      (delete_item key cat ds fs).state = ds ∧
      (delete_item key cat ds fs).file = fs) := by
  have hst : containsKey (ds.get cat) key = true →
      (delete_item key cat ds fs).state.get cat = dictErase (ds.get cat) key := by
    intro h
    simp only [delete_item, h, if_true]
    exact DataStore.get_set ds cat _
  constructor
  · intro h
    refine ⟨by simp [delete_item, h], hst h, ?_, by simp [delete_item, h]⟩
    intro p hp
    rw [hst h] at hp
    exact dictErase_not_mem (ds.get cat) key hnd p ((mem_sortedItems _ p).mp hp)
  · intro h
    simp [delete_item, h]

/-- Witness for C8 on a one-entry store: deleting its key and deleting an
absent key. -/
theorem C8_delete_item_witness :
    nodupKeys (storeA.get Category.etkinlikler) ∧
    ((containsKey (storeA.get Category.etkinlikler) "2025-03-10" = true →
      (delete_item "2025-03-10" Category.etkinlikler storeA file0).msgs
        = [UIMsg.successDeleted "2025-03-10"] ∧
      (delete_item "2025-03-10" Category.etkinlikler storeA file0).state.get
          Category.etkinlikler
        = dictErase (storeA.get Category.etkinlikler) "2025-03-10" ∧
      (∀ p ∈ sortedItems ((delete_item "2025-03-10" Category.etkinlikler storeA
          file0).state.get Category.etkinlikler), p.1 ≠ "2025-03-10") ∧
      (delete_item "2025-03-10" Category.etkinlikler storeA file0).file
        = save_data ((delete_item "2025-03-10" Category.etkinlikler storeA
            file0).state) file0) ∧
    (containsKey (storeA.get Category.etkinlikler) "2025-03-10" = false →
      (delete_item "2025-03-10" Category.etkinlikler storeA file0).msgs
        = [UIMsg.warnNotFound "2025-03-10"] ∧
      (delete_item "2025-03-10" Category.etkinlikler storeA file0).state = storeA ∧
      (delete_item "2025-03-10" Category.etkinlikler storeA file0).file = file0)) :=
  ⟨by decide, C8_delete_item "2025-03-10" Category.etkinlikler storeA file0 (by decide)⟩

/-- C9: inserting at an absent DateKey succeeds with the success message,
creates the entry with `is_new = true` (visible immediately by lookup), and
the sorted listing of the updated dict is sorted by ascending date, contains
the new entry, and is a permutation of the old entries plus the new one. -/
theorem C9_add_item_new (date : Date) (text : String) (cat : Category)
    (ds : DataStore) (fs : BackingStore)
    (h : containsKey (ds.get cat) date.isoformat = false) :
    (add_item date text cat ds fs).msgs = [UIMsg.successAdded date.isoformat text] ∧
    (add_item date text cat ds fs).state.get cat
      = dictInsertNew (ds.get cat) date.isoformat
          { date := date, description := text, is_new := true } ∧
    dictLookup ((add_item date text cat ds fs).state.get cat) date.isoformat
      = some { date := date, description := text, is_new := true } ∧
    List.Sorted itemLe (sortedItems ((add_item date text cat ds fs).state.get cat)) ∧
    (date.isoformat, { date := date, description := text, is_new := true })
      ∈ sortedItems ((add_item date text cat ds fs).state.get cat) ∧
    (sortedItems ((add_item date text cat ds fs).state.get cat)).Perm
      (dictInsertNew (ds.get cat) date.isoformat
        { date := date, description := text, is_new := true }) ∧
    (add_item date text cat ds fs).file
      = save_data ((add_item date text cat ds fs).state) fs := by
  have hstate : (add_item date text cat ds fs).state.get cat
      = dictInsertNew (ds.get cat) date.isoformat
          { date := date, description := text, is_new := true } := by
    simp only [add_item, h, Bool.false_eq_true, if_false]
    exact DataStore.get_set ds cat _
  refine ⟨by simp [add_item, h], hstate, ?_, ?_, ?_, ?_, by simp [add_item, h]⟩
  · rw [hstate]
    exact dictLookup_insertNew (ds.get cat) date.isoformat _ h
  · exact List.sorted_insertionSort itemLe _
  · rw [hstate]
    exact (mem_sortedItems _ _).mpr (by simp [dictInsertNew])
  · rw [hstate]
    exact List.perm_insertionSort itemLe _

/-- Witness for C9: inserting 2025-03-10 "Workshop" into an empty store. -/
theorem C9_add_item_new_witness :
    containsKey ((DataStore.mk [] [] []).get Category.etkinlikler)
      (Date.isoformat ⟨2025, 3, 10⟩) = false ∧
    ((add_item ⟨2025, 3, 10⟩ "Workshop" Category.etkinlikler (DataStore.mk [] [] [])
        file0).msgs = [UIMsg.successAdded (Date.isoformat ⟨2025, 3, 10⟩) "Workshop"] ∧
    (add_item ⟨2025, 3, 10⟩ "Workshop" Category.etkinlikler (DataStore.mk [] [] [])
        file0).state.get Category.etkinlikler
      = dictInsertNew ((DataStore.mk [] [] []).get Category.etkinlikler)
          (Date.isoformat ⟨2025, 3, 10⟩)
          { date := ⟨2025, 3, 10⟩, description := "Workshop", is_new := true } ∧
    dictLookup ((add_item ⟨2025, 3, 10⟩ "Workshop" Category.etkinlikler
        (DataStore.mk [] [] []) file0).state.get Category.etkinlikler)
        (Date.isoformat ⟨2025, 3, 10⟩)
      = some { date := ⟨2025, 3, 10⟩, description := "Workshop", is_new := true } ∧
    List.Sorted itemLe (sortedItems ((add_item ⟨2025, 3, 10⟩ "Workshop"
        Category.etkinlikler (DataStore.mk [] [] []) file0).state.get
        Category.etkinlikler)) ∧
    (Date.isoformat ⟨2025, 3, 10⟩,
        { date := ⟨2025, 3, 10⟩, description := "Workshop", is_new := true })
      ∈ sortedItems ((add_item ⟨2025, 3, 10⟩ "Workshop" Category.etkinlikler
          (DataStore.mk [] [] []) file0).state.get Category.etkinlikler) ∧
    (sortedItems ((add_item ⟨2025, 3, 10⟩ "Workshop" Category.etkinlikler
        (DataStore.mk [] [] []) file0).state.get Category.etkinlikler)).Perm
      (dictInsertNew ((DataStore.mk [] [] []).get Category.etkinlikler)
        (Date.isoformat ⟨2025, 3, 10⟩)
        { date := ⟨2025, 3, 10⟩, description := "Workshop", is_new := true }) ∧
    (add_item ⟨2025, 3, 10⟩ "Workshop" Category.etkinlikler (DataStore.mk [] [] [])
        file0).file
      = save_data ((add_item ⟨2025, 3, 10⟩ "Workshop" Category.etkinlikler
          (DataStore.mk [] [] []) file0).state) file0) :=
  ⟨by decide, C9_add_item_new ⟨2025, 3, 10⟩ "Workshop" Category.etkinlikler
    (DataStore.mk [] [] []) file0 (by decide)⟩

/-- Stores reachable through the program's public operations: the bootstrap
empty store (`load_data` with no file), `add_item`, `delete_item`, and a
save-then-load cycle.  Dates passed to `add_item` come from
`st.date_input`, i.e. real `datetime.date` values, hence the `date.valid`
side condition. -/
inductive Reachable : DataStore → Prop where
  | boot : Reachable {}
  | add (date : Date) (text : String) (cat : Category) (ds : DataStore)
      (fs : BackingStore) (hr : Reachable ds) (hv : date.valid) :
      Reachable (add_item date text cat ds fs).state
  | del (key : String) (cat : Category) (ds : DataStore) (fs : BackingStore)
      (hr : Reachable ds) : Reachable (delete_item key cat ds fs).state
  | reload (ds ds2 : DataStore) (fs : BackingStore) (hr : Reachable ds)
      (h : load_data (save_data ds fs).content = Except.ok ds2) : Reachable ds2

/-- Every reachable store maps each key to an entry whose date prints back
to exactly that key, and every stored date is valid. -/
theorem reachable_key_invariant {ds : DataStore} (hr : Reachable ds) :
    ∀ cat : Category, ∀ p ∈ ds.get cat,
      p.1 = (Prod.snd p).date.isoformat ∧ (Prod.snd p).date.valid := by
  induction hr with
  | boot =>
    intro cat p hp
    cases cat <;> simp [DataStore.get] at hp
  | add date text cat ds fs hr hv ih =>
    intro cat' p hp
    by_cases hc : containsKey (ds.get cat) date.isoformat = true
    · have hstate : (add_item date text cat ds fs).state = ds := by
        simp [add_item, hc]
      rw [hstate] at hp
      exact ih cat' p hp
    · rw [Bool.not_eq_true] at hc
      have hstate : (add_item date text cat ds fs).state
          = ds.set cat (dictInsertNew (ds.get cat) date.isoformat
              { date := date, description := text, is_new := true }) := by
        simp [add_item, hc]
      rw [hstate] at hp
      by_cases hcat : cat' = cat
      · subst hcat
        rw [DataStore.get_set] at hp
        simp only [dictInsertNew] at hp
        rcases List.mem_append.mp hp with hold | hnew
        · exact ih cat' p hold
        · have hpv := List.mem_singleton.mp hnew
          subst hpv
          exact ⟨rfl, hv⟩
      · rw [DataStore.get_set_ne ds cat cat' _ hcat] at hp
        exact ih cat' p hp
  | del key cat ds fs hr ih =>
    intro cat' p hp
    by_cases hc : containsKey (ds.get cat) key = true
    · have hstate : (delete_item key cat ds fs).state
          = ds.set cat (dictErase (ds.get cat) key) := by
        simp [delete_item, hc]
      rw [hstate] at hp
      by_cases hcat : cat' = cat
      · subst hcat
        rw [DataStore.get_set] at hp
        exact ih cat' p (mem_of_mem_dictErase _ _ _ hp)
      · rw [DataStore.get_set_ne ds cat cat' _ hcat] at hp
        exact ih cat' p hp
    · rw [Bool.not_eq_true] at hc
      have hstate : (delete_item key cat ds fs).state = ds := by
        simp [delete_item, hc]
      rw [hstate] at hp
      exact ih cat' p hp
  | reload ds ds2 fs hr h ih =>
    have hv : ds.validDates :=
      ⟨fun p hp => (ih Category.etkinlikler p hp).2,
       fun p hp => (ih Category.duyurular p hp).2,
       fun p hp => (ih Category.haberler p hp).2⟩
    rw [save_load_roundtrip ds fs hv] at h
    have h2 : ds = ds2 := by
      injection h
    rw [← h2]
    exact ih

/-- C10: every category store reachable through the public operations
(insert, delete, save-then-load) maps each key to an entry whose date's
ISO-8601 string is exactly that key — the key/value agreement the grid
builder's per-day lookup relies on. -/
theorem C10_key_matches_entry_date {ds : DataStore} (hr : Reachable ds) :
    ∀ cat : Category, ∀ p ∈ ds.get cat, p.1 = (Prod.snd p).date.isoformat :=
  fun cat p hp => (reachable_key_invariant hr cat p hp).1

/-- Witness for C10: the store reached by one insert into the empty store. -/
theorem C10_key_matches_entry_date_witness :
    Reachable (add_item ⟨2025, 3, 10⟩ "Workshop" Category.etkinlikler {} file0).state ∧
    ∀ cat : Category,
      ∀ p ∈ (add_item ⟨2025, 3, 10⟩ "Workshop" Category.etkinlikler {} file0).state.get cat,
        p.1 = (Prod.snd p).date.isoformat :=
  ⟨Reachable.add ⟨2025, 3, 10⟩ "Workshop" Category.etkinlikler {} file0
      Reachable.boot (by decide),
   C10_key_matches_entry_date
     (Reachable.add ⟨2025, 3, 10⟩ "Workshop" Category.etkinlikler {} file0
       Reachable.boot (by decide))⟩
